import Mathlib

/-!
Shallow embedding of the CAST type-coercion engine of
`src/expression/builtin_cast.go` (TiDB expression package).

Each `builtinCastXXAsYYSig.evalZZ` method is embedded as a Lean function of
the target `FieldType`, the already-evaluated source value (`Option` models
the SQL null flag of the evaluation accessor), and the statement context
`StmtCtx`.  Go methods mutate the statement context by appending warnings;
here the context is threaded explicitly and returned in the `Ret` record.

Helpers of the `types` package (StrToInt, MyDecimal rounding, ParseDuration,
ParseTime, ProduceDecWithSpecifiedTp, ...) are not part of `src/`; those are
modelled from the spec and carry a doc comment saying so.
-/

namespace TidbCast

/-- Signed 64-bit upper bound, as in `math.MaxInt64`. -/
def maxInt64 : Int := 2 ^ 63 - 1

/-- Signed 64-bit lower bound, as in `math.MinInt64`. -/
def minInt64 : Int := -(2 ^ 63)

/-- Unsigned 64-bit upper bound, as in `math.MaxUint64`. -/
def maxUint64 : Nat := 2 ^ 64 - 1

/-- The value `math.MaxInt64` seen as a `Nat`, used for the
`ures > uint64(math.MaxInt64)` comparison in the string-to-int routine. -/
def maxInt64nat : Nat := 2 ^ 63 - 1

/-- Reinterpretation of a `uint64` bit pattern as an `int64`, as performed by
the Go conversion `int64(u)`. -/
def int64ofUint64 (u : Nat) : Int :=
  if u < 2 ^ 63 then (u : Int) else (u : Int) - 2 ^ 64

/-- Reinterpretation of an `int64` bit pattern as a `uint64`, as performed by
the Go conversion `uint64(i)`. -/
def uint64ofInt64 (i : Int) : Nat :=
  (i % (2 ^ 64 : Int)).toNat

/-- Error/warning values produced by the conversion routines.  Mirrors the
`types.Err*` terror values used in `builtin_cast.go`; terror class equality
(`ErrX.Equal(err)`) ignores the formatted arguments, so the constructors carry
just the payloads the claims talk about. -/
inductive Err
  | overflow
  | truncated
  | truncatedWrongVal (kind : String) (val : String)
  | castNegIntAsUnsigned
  | castAsSignedOverflow
  | invalidFormat (s : String)
deriving DecidableEq

/-- Discriminator for `types.ErrOverflow.Equal(err)`. -/
def Err.isOverflow : Err → Bool
  | .overflow => true
  | _ => false

/-- Discriminator for `types.ErrTruncatedWrongVal.Equal(err)`. -/
def Err.isTruncatedWrongVal : Err → Bool
  | .truncatedWrongVal _ _ => true
  | _ => false

/-- Statement context (`stmtctx.StatementContext`): the diagnostics sink and
policy flags consulted by the routines, plus the implicit current date used
by the Duration to DateTime anchoring.  Warnings accumulate in order. -/
structure StmtCtx where
  inSelectStmt : Bool
  truncateAsWarning : Bool
  nowYear : Nat
  nowMonth : Nat
  nowDay : Nat
  warnings : List Err
deriving DecidableEq

/-- The `sc.AppendWarning` method of the diagnostics sink. -/
def StmtCtx.appendWarning (sc : StmtCtx) (w : Err) : StmtCtx :=
  { sc with warnings := sc.warnings ++ [w] }

/-- Modelled from the spec: `sc.HandleOverflow` (the diagnostics sink
contract, not under src/) clamps-and-warns in lenient (SELECT) context and is
fatal otherwise: in lenient context the warning is appended and no error is
returned, in strict context the original error is returned unchanged. -/
def StmtCtx.handleOverflow (sc : StmtCtx) (err warnErr : Err) : Option Err × StmtCtx :=
  if sc.inSelectStmt then (none, sc.appendWarning warnErr) else (some err, sc)

/-- Modelled from the spec: `sc.HandleTruncate` (the diagnostics sink
contract, not under src/) turns a truncation into a warning when policy says
truncation is recoverable, else keeps it as an error. -/
def StmtCtx.handleTruncate (sc : StmtCtx) (err : Err) : Option Err × StmtCtx :=
  if sc.truncateAsWarning then (none, sc.appendWarning err) else (some err, sc)

/-- SQL type tags (`mysql.TypeXXX`) relevant to the cast routines. -/
inductive TypeTag
  | date
  | datetime
  | timestamp
  | durationTag
  | longlong
  | newDecimal
  | varString
  | double
  | jsonTag
deriving DecidableEq

/-- Target type descriptor: the fields of `types.FieldType` consumed by the
cast routines.  `none` in `flen`/`decimal` models `types.UnspecifiedLength`. -/
structure FieldType where
  tp : TypeTag
  flen : Option Nat
  decimal : Option Nat
  unsigned : Bool
  isBoolean : Bool
  parseToJSON : Bool
deriving DecidableEq

/-- Declared evaluation classes (`types.EvalType`). -/
inductive EvalType
  | ETInt
  | ETReal
  | ETDecimal
  | ETDatetime
  | ETTimestamp
  | ETDuration
  | ETJson
  | ETString
deriving DecidableEq

/-- What the dispatcher inspects about the argument expression: its declared
evaluation class, the `GetType().Hybrid()` flag and `IsBinaryLiteral`. -/
structure ArgType where
  evalType : EvalType
  hybrid : Bool
  binaryLiteral : Bool
deriving DecidableEq

/-- Source classes of the concrete routine signatures; `ETDatetime` and
`ETTimestamp` both select the Time-source routines. -/
inductive SrcClass
  | cInt
  | cReal
  | cDecimal
  | cTime
  | cDuration
  | cJson
  | cString
deriving DecidableEq

/-- The source class a declared evaluation class selects when no
special-casing applies. -/
def classOfEvalType : EvalType → SrcClass
  | .ETInt => .cInt
  | .ETReal => .cReal
  | .ETDecimal => .cDecimal
  | .ETDatetime => .cTime
  | .ETTimestamp => .cTime
  | .ETDuration => .cDuration
  | .ETJson => .cJson
  | .ETString => .cString

/-- Per-row outcome of a conversion routine: the Go triple
`(res, isNull, err)` plus the updated statement context. -/
structure Ret (α : Type) where
  res : α
  isNull : Bool
  err : Option Err
  sc : StmtCtx
deriving DecidableEq

/-- True when the character list is a nonempty run of decimal digits. -/
def isDigitChars (l : List Char) : Bool :=
  !l.isEmpty && l.all (fun c => c.isDigit)

/-- Decimal digits to a natural number. -/
def digitsVal (l : List Char) : Nat :=
  l.foldl (fun a c => a * 10 + (c.toNat - 48)) 0

/-- True when the string is a nonempty run of decimal digits. -/
def isDigitString (s : String) : Bool :=
  isDigitChars s.data

/-- Decimal digits to a natural number. -/
def digitsToNat (s : String) : Nat :=
  digitsVal s.data

/-- The `strings.TrimSpace` helper: strip whitespace from both ends. -/
def trimString (s : String) : String :=
  ⟨((s.data.dropWhile fun c => c.isWhitespace).reverse.dropWhile fun c => c.isWhitespace).reverse⟩

/-- True when the first byte of the string is a minus sign
(the Go test `val[0] == '-'`). -/
def headIsMinus (s : String) : Bool :=
  match s.data with
  | [] => false
  | c :: _ => c == '-'

/-- Drop the first character of the string. -/
def dropHead (s : String) : String :=
  ⟨s.data.drop 1⟩

/-- Split a character list on a separator character, as `strings.Split`
does on a one-character separator. -/
def splitOnChar (sep : Char) : List Char → List (List Char)
  | [] => [[]]
  | c :: rest =>
    let r := splitOnChar sep rest
    if c == sep then [] :: r
    else
      match r with
      | [] => [[c]]
      | h :: t => (c :: h) :: t

/-- Modelled from the spec: `types.StrToUint` (not under src/) parses a
non-negative integer literal; an out-of-range value clamps to the unsigned
64-bit endpoint with an overflow error, a malformed literal yields a
truncation error with best-effort zero. -/
def StrToUint (s : String) : Nat × Option Err :=
  if isDigitString s then
    let v := digitsToNat s
    if maxUint64 < v then (maxUint64, some Err.overflow) else (v, none)
  else (0, some Err.truncated)

/-- Modelled from the spec: `types.StrToInt` (not under src/) parses a signed
integer literal; an out-of-range value clamps to the signed 64-bit endpoint
with an overflow error, a malformed literal yields a truncation error. -/
def StrToInt (s : String) : Int × Option Err :=
  let neg := headIsMinus s
  let body := if neg then dropHead s else s
  if isDigitString body then
    let v : Int := if neg then -(digitsToNat body : Int) else (digitsToNat body : Int)
    if v < minInt64 then (minInt64, some Err.overflow)
    else if maxInt64 < v then (maxInt64, some Err.overflow)
    else (v, none)
  else (0, some Err.truncated)

/-- Fixed-point decimal (`types.MyDecimal`): the represented value is
`units / 10 ^ scale`.  `scale` is the count of fractional digits. -/
structure MyDecimal where
  units : Int
  scale : Nat
deriving DecidableEq

/-- Round `n / p` to the nearest natural number, ties to even
(banker's rounding on the magnitude). -/
def roundHalfEvenNat (n p : Nat) : Nat :=
  let q := n / p
  let r := n % p
  if 2 * r < p then q
  else if p < 2 * r then q + 1
  else if q % 2 = 0 then q else q + 1

/-- Round `i / p` to the nearest integer, ties to even, rounding the
magnitude (MySQL decimal rounding is sign-symmetric). -/
def roundHalfEvenInt (i : Int) (p : Nat) : Int :=
  if 0 ≤ i then (roundHalfEvenNat i.toNat p : Int)
  else -(roundHalfEvenNat (-i).toNat p : Int)

/-- Modelled from the spec: `MyDecimal.Round(.., frac, ModeHalfEven)` (not
under src/) re-scales the decimal to `frac` fractional digits, padding with
zeros when the target scale is larger and rounding half-to-even when digits
are dropped. -/
def MyDecimal.roundScale (d : MyDecimal) (frac : Nat) : MyDecimal :=
  if d.scale ≤ frac then ⟨d.units * 10 ^ (frac - d.scale), frac⟩
  else ⟨roundHalfEvenInt d.units (10 ^ (d.scale - frac)), frac⟩

/-- The integer obtained by rounding the decimal to zero fractional digits
half-to-even, as `val.Round(&to, 0, types.ModeHalfEven)` produces. -/
def MyDecimal.roundToIntHalfEven (d : MyDecimal) : Int :=
  (d.roundScale 0).units

/-- Integer part of the decimal, truncated toward zero. -/
def MyDecimal.intPartTrunc (d : MyDecimal) : Int :=
  Int.tdiv d.units ((10 : Int) ^ d.scale)

/-- Modelled from the spec: `MyDecimal.ToInt` (not under src/) converts to a
signed 64-bit integer, clamping to the endpoint with an overflow error when
the value is out of range. -/
def MyDecimal.toInt (d : MyDecimal) : Int × Option Err :=
  let v := d.intPartTrunc
  if v < minInt64 then (minInt64, some Err.overflow)
  else if maxInt64 < v then (maxInt64, some Err.overflow)
  else (v, none)

/-- Modelled from the spec: `MyDecimal.ToUint` (not under src/) converts to
an unsigned 64-bit integer, clamping to the endpoint with an overflow error
when the value is negative or too large. -/
def MyDecimal.toUint (d : MyDecimal) : Nat × Option Err :=
  let v := d.intPartTrunc
  if v < 0 then (0, some Err.overflow)
  else if (maxUint64 : Int) < v then (maxUint64, some Err.overflow)
  else (v.toNat, none)

/-- Left-pad a digit string with zeros up to `n` characters. -/
def padZeros (s : String) (n : Nat) : String :=
  String.mk (List.replicate (n - s.length) '0') ++ s

/-- The canonical decimal literal text, as `MyDecimal.ToString` renders it:
optional sign, integer digits, and when the scale is positive a point
followed by exactly `scale` fractional digits. -/
def MyDecimal.str (d : MyDecimal) : String :=
  let a := d.units.natAbs
  let p := 10 ^ d.scale
  let ip := a / p
  let fp := a % p
  let sign := if d.units < 0 then "-" else ""
  if d.scale = 0 then sign ++ toString ip
  else sign ++ toString ip ++ "." ++ padZeros (toString fp) d.scale

/-- Modelled from the spec: the Real evaluation class.  The claims settled
here never depend on binary floating-point semantics, only on the value a
real renders to / parses from, so a real is carried as its exact decimal
reading (the shortest round-trip float text of the spec). -/
structure RealNum where
  dec : MyDecimal
deriving DecidableEq

/-- Modelled from the spec: `strconv.FormatFloat(val, f, -1, 64)` renders
the shortest round-trip decimal text of the real. -/
def RealNum.str (r : RealNum) : String :=
  r.dec.str

/-- Modelled from the spec: `types.ProduceDecWithSpecifiedTp` (not under
src/) always passes a Decimal-target result through a precision-adjustment
step: with declared digits and scale it re-scales to the target scale,
rounding half-to-even and reporting a truncation when fractional digits are
dropped; with unspecified length it returns the value unchanged. -/
def ProduceDecWithSpecifiedTp (d : MyDecimal) (tp : FieldType) (sc : StmtCtx) :
    MyDecimal × Option Err × StmtCtx :=
  match tp.flen, tp.decimal with
  | some _, some frac =>
    if d.scale ≤ frac then (d.roundScale frac, none, sc)
    else
      let r := d.roundScale frac
      let (e, sc2) := sc.handleTruncate Err.truncated
      (r, e, sc2)
  | _, _ => (d, none, sc)

/-- Modelled from the spec: `types.ProduceStrWithSpecifiedTp` (not under
src/) clamps a String-target result to the declared display length,
reporting a truncation when characters are dropped; with unspecified length
it returns the string unchanged. -/
def ProduceStrWithSpecifiedTp (s : String) (tp : FieldType) (sc : StmtCtx) :
    String × Option Err × StmtCtx :=
  match tp.flen with
  | none => (s, none, sc)
  | some f =>
    if s.length ≤ f then (s, none, sc)
    else
      let (e, sc2) := sc.handleTruncate Err.truncated
      (⟨s.data.take f⟩, e, sc2)

/-- Calendar time value (`types.MysqlTime`): date and time-of-day fields. -/
structure MysqlTime where
  year : Nat
  month : Nat
  day : Nat
  hour : Nat
  minute : Nat
  second : Nat
  microsecond : Nat
deriving DecidableEq

/-- The `types.FromDate` constructor. -/
def FromDate (year month day hour minute second microsecond : Nat) : MysqlTime :=
  ⟨year, month, day, hour, minute, second, microsecond⟩

/-- Typed temporal value (`types.Time`): the calendar fields plus the
concrete temporal tag and fractional-seconds precision. -/
structure TimeVal where
  time : MysqlTime
  type : TypeTag
  fsp : Nat
deriving DecidableEq

/-- The all-zero time used on parse-error paths. -/
def zeroTimeVal (tag : TypeTag) : TimeVal :=
  ⟨⟨0, 0, 0, 0, 0, 0, 0⟩, tag, 0⟩

/-- Basic calendar-field validation used by the modelled parsers. -/
def validDateFields (y mo d : Nat) : Bool :=
  decide (1 ≤ mo) && decide (mo ≤ 12) && decide (1 ≤ d) && decide (d ≤ 31) && decide (y ≤ 9999)

/-- Basic clock-field validation used by the modelled parsers. -/
def validClockFields (h mi s : Nat) : Bool :=
  decide (h < 24) && decide (mi < 60) && decide (s < 60)

/-- Parse a `YYYY-MM-DD` fragment. -/
def parseDateFields (l : List Char) : Option (Nat × Nat × Nat) :=
  match splitOnChar '-' l with
  | [y, mo, d] =>
    if isDigitChars y && isDigitChars mo && isDigitChars d then
      let yv := digitsVal y
      let mv := digitsVal mo
      let dv := digitsVal d
      if validDateFields yv mv dv then some (yv, mv, dv) else none
    else none
  | _ => none

/-- Parse an `HH:MM:SS` fragment. -/
def parseClockFields (l : List Char) : Option (Nat × Nat × Nat) :=
  match splitOnChar ':' l with
  | [h, mi, sec] =>
    if isDigitChars h && isDigitChars mi && isDigitChars sec then
      let hv := digitsVal h
      let mv := digitsVal mi
      let sv := digitsVal sec
      if validClockFields hv mv sv then some (hv, mv, sv) else none
    else none
  | _ => none

/-- Modelled from the spec: `types.ParseTimeFromNum` (not under src/) reads
the numeric datetime encoding `YYYYMMDD` or `YYYYMMDDHHMMSS` of an integer
source; out-of-range fields are an error with the zero time as best
effort. -/
def ParseTimeFromNum (v : Int) (tag : TypeTag) (fsp : Option Nat) : TimeVal × Option Err :=
  if v < 0 then (zeroTimeVal tag, some (Err.invalidFormat (toString v)))
  else
    let n := v.toNat
    let dateN := if n < 100000000 then n else n / 1000000
    let clockN := if n < 100000000 then 0 else n % 1000000
    let y := dateN / 10000
    let mo := dateN / 100 % 100
    let d := dateN % 100
    let h := clockN / 10000
    let mi := clockN / 100 % 100
    let s := clockN % 100
    if validDateFields y mo d && validClockFields h mi s then
      (⟨⟨y, mo, d, h, mi, s, 0⟩, tag, fsp.getD 0⟩, none)
    else (zeroTimeVal tag, some (Err.invalidFormat (toString v)))

/-- Modelled from the spec: `types.ParseTime` (not under src/) parses a
datetime literal — date part with optional time-of-day part, or the pure
digit numeric encoding — under the target temporal tag and fractional
precision; a malformed literal is an error with the zero time as best
effort. -/
def ParseTime (s : String) (tag : TypeTag) (fsp : Option Nat) : TimeVal × Option Err :=
  if isDigitChars s.data then ParseTimeFromNum ((digitsVal s.data : Nat) : Int) tag fsp
  else
    match splitOnChar ' ' s.data with
    | [dateCs] =>
      match parseDateFields dateCs with
      | some (y, mo, d) => (⟨⟨y, mo, d, 0, 0, 0, 0⟩, tag, fsp.getD 0⟩, none)
      | none => (zeroTimeVal tag, some (Err.invalidFormat s))
    | [dateCs, clockCs] =>
      match parseDateFields dateCs, parseClockFields clockCs with
      | some (y, mo, d), some (h, mi, sec) =>
        (⟨⟨y, mo, d, h, mi, sec, 0⟩, tag, fsp.getD 0⟩, none)
      | _, _ => (zeroTimeVal tag, some (Err.invalidFormat s))
    | _ => (zeroTimeVal tag, some (Err.invalidFormat s))

/-- Modelled from the spec: `Time.RoundFrac` (not under src/) rounds the
microsecond field to the declared fractional-seconds precision, carrying
into the seconds on round-up; an unspecified precision leaves the value
unchanged. -/
def TimeVal.roundFrac (t : TimeVal) : Option Nat → TimeVal
  | none => t
  | some f =>
    if 6 ≤ f then { t with fsp := f }
    else
      let p := 10 ^ (6 - f)
      let rounded := (t.time.microsecond + p / 2) / p * p
      if rounded < 1000000 then
        { t with time := { t.time with microsecond := rounded }, fsp := f }
      else
        { t with time := { t.time with second := t.time.second + 1, microsecond := 0 }, fsp := f }

/-- Modelled from the spec: `Time.Convert` (not under src/) retags the value
to the requested temporal tag, validating it against that tag. -/
def TimeVal.convert (t : TimeVal) (tag : TypeTag) : TimeVal × Option Err :=
  ({ t with type := tag }, none)

/-- Signed time-of-day interval (`types.Duration`): nanosecond count plus
fractional-seconds precision.  Go compares whole structs, so
`res == types.ZeroDuration` requires both fields of the zero value. -/
structure DurationVal where
  nanos : Int
  fsp : Nat
deriving DecidableEq

/-- The `types.ZeroDuration` value. -/
def ZeroDuration : DurationVal := ⟨0, 0⟩

/-- Modelled from the spec: `types.ParseDuration` (not under src/) parses a
signed `HH:MM:SS` duration literal at the requested fractional precision; a
malformed literal is a truncation diagnostic (`ErrTruncatedWrongVal`) with
the literal zero duration as best effort. -/
def ParseDuration (s : String) (fsp : Option Nat) : DurationVal × Option Err :=
  let neg := headIsMinus s
  let body := if neg then dropHead s else s
  match parseClockFields body.data with
  | some (h, mi, sec) =>
    let n : Int := ((h * 3600 + mi * 60 + sec : Nat) : Int) * 1000000000
    (⟨if neg then -n else n, fsp.getD 0⟩, none)
  | none => (ZeroDuration, some (Err.truncatedWrongVal "time" s))

/-- Modelled from the spec: `Duration.ConvertToTime` (not under src/)
anchors the duration against the implicit current date supplied by the
statement context, producing a datetime, then converts to the target
temporal tag; when the tag is DATE the time-of-day component is zeroed by
that conversion. -/
def DurationVal.convertToTime (d : DurationVal) (sc : StmtCtx) (tag : TypeTag) :
    TimeVal × Option Err :=
  let secOfDay := (Int.tdiv d.nanos 1000000000 % 86400).toNat
  let micro := (Int.tdiv (d.nanos % 1000000000) 1000).toNat
  let t : TimeVal :=
    ⟨⟨sc.nowYear, sc.nowMonth, sc.nowDay,
      secOfDay / 3600, secOfDay / 60 % 60, secOfDay % 60, micro⟩, tag, d.fsp⟩
  if tag = TypeTag.date then
    ({ t with time := FromDate t.time.year t.time.month t.time.day 0 0 0 0 }, none)
  else (t, none)

/-- JSON scalar values (`json.BinaryJSON`) as far as the cast routines need
them: booleans, signed and unsigned numbers, and string scalars. -/
inductive JsonValue
  | jbool (b : Bool)
  | jint (i : Int)
  | juint (u : Nat)
  | jstring (s : String)
deriving DecidableEq

/-- The `BinaryJSON.String()` serialization: scalars quote strings. -/
def JsonValue.str : JsonValue → String
  | .jbool true => "true"
  | .jbool false => "false"
  | .jint i => toString i
  | .juint u => toString u
  | .jstring s => String.mk ('\x22' :: s.data) ++ "\x22"

/-- Modelled from the spec: `BinaryJSON.Unquote` (not under src/) returns
the inner text of a string scalar and the serialization of anything else. -/
def JsonValue.unquote : JsonValue → String × Option Err
  | .jstring s => (s, none)
  | v => (v.str, none)

/-- Modelled from the spec: `types.ConvertJSONToFloat` (not under src/)
applies JSON-to-number coercion. -/
def ConvertJSONToFloat (v : JsonValue) : RealNum × Option Err :=
  match v with
  | .jbool b => (⟨⟨if b then 1 else 0, 0⟩⟩, none)
  | .jint i => (⟨⟨i, 0⟩⟩, none)
  | .juint u => (⟨⟨(u : Int), 0⟩⟩, none)
  | .jstring s =>
    match StrToInt s with
    | (v, none) => (⟨⟨v, 0⟩⟩, none)
    | (_, some e) => (⟨⟨0, 0⟩⟩, some e)

/-- Routine selected by a dispatcher: source class paired with target
class, standing for the concrete `builtinCastXXAsYYSig` signature and its
stable compatibility opcode. -/
abbrev Sig := SrcClass × SrcClass

/-- Dispatcher for an Integer target (`castAsIntFunctionClass.getFunction`):
a hybrid or binary-literal source selects the Int-to-Int routine, otherwise
the declared evaluation class selects the routine.  Arity other than one is
an internal defect. -/
def castAsIntFunctionClass.getFunction (args : List ArgType) : Except Err Sig :=
  match args with
  | [arg] =>
    if arg.hybrid || arg.binaryLiteral then Except.ok (SrcClass.cInt, SrcClass.cInt)
    else
      match arg.evalType with
      | .ETInt => Except.ok (.cInt, .cInt)
      | .ETReal => Except.ok (.cReal, .cInt)
      | .ETDecimal => Except.ok (.cDecimal, .cInt)
      | .ETDatetime => Except.ok (.cTime, .cInt)
      | .ETTimestamp => Except.ok (.cTime, .cInt)
      | .ETDuration => Except.ok (.cDuration, .cInt)
      | .ETJson => Except.ok (.cJson, .cInt)
      | .ETString => Except.ok (.cString, .cInt)
  | _ => Except.error (Err.invalidFormat "arity")

/-- Dispatcher for a Real target (`castAsRealFunctionClass.getFunction`): a
binary-literal source selects the identity Real-to-Real routine; a
(non-binary) hybrid source is treated as Integer; otherwise the declared
evaluation class selects the routine. -/
def castAsRealFunctionClass.getFunction (args : List ArgType) : Except Err Sig :=
  match args with
  | [arg] =>
    if arg.binaryLiteral then Except.ok (SrcClass.cReal, SrcClass.cReal)
    else
      let argTp := if arg.hybrid then EvalType.ETInt else arg.evalType
      match argTp with
      | .ETInt => Except.ok (.cInt, .cReal)
      | .ETReal => Except.ok (.cReal, .cReal)
      | .ETDecimal => Except.ok (.cDecimal, .cReal)
      | .ETDatetime => Except.ok (.cTime, .cReal)
      | .ETTimestamp => Except.ok (.cTime, .cReal)
      | .ETDuration => Except.ok (.cDuration, .cReal)
      | .ETJson => Except.ok (.cJson, .cReal)
      | .ETString => Except.ok (.cString, .cReal)
  | _ => Except.error (Err.invalidFormat "arity")

/-- Dispatcher for a Decimal target
(`castAsDecimalFunctionClass.getFunction`): a binary-literal source selects
the identity Decimal-to-Decimal routine; a (non-binary) hybrid source is
treated as Integer; otherwise the declared evaluation class selects the
routine. -/
def castAsDecimalFunctionClass.getFunction (args : List ArgType) : Except Err Sig :=
  match args with
  | [arg] =>
    if arg.binaryLiteral then Except.ok (SrcClass.cDecimal, SrcClass.cDecimal)
    else
      let argTp := if arg.hybrid then EvalType.ETInt else arg.evalType
      match argTp with
      | .ETInt => Except.ok (.cInt, .cDecimal)
      | .ETReal => Except.ok (.cReal, .cDecimal)
      | .ETDecimal => Except.ok (.cDecimal, .cDecimal)
      | .ETDatetime => Except.ok (.cTime, .cDecimal)
      | .ETTimestamp => Except.ok (.cTime, .cDecimal)
      | .ETDuration => Except.ok (.cDuration, .cDecimal)
      | .ETJson => Except.ok (.cJson, .cDecimal)
      | .ETString => Except.ok (.cString, .cDecimal)
  | _ => Except.error (Err.invalidFormat "arity")

/-- Dispatcher for a String target
(`castAsStringFunctionClass.getFunction`): a hybrid or binary-literal source
selects the identity String-to-String routine, otherwise the declared
evaluation class selects the routine. -/
def castAsStringFunctionClass.getFunction (args : List ArgType) : Except Err Sig :=
  match args with
  | [arg] =>
    if arg.hybrid || arg.binaryLiteral then Except.ok (SrcClass.cString, SrcClass.cString)
    else
      match arg.evalType with
      | .ETInt => Except.ok (.cInt, .cString)
      | .ETReal => Except.ok (.cReal, .cString)
      | .ETDecimal => Except.ok (.cDecimal, .cString)
      | .ETDatetime => Except.ok (.cTime, .cString)
      | .ETTimestamp => Except.ok (.cTime, .cString)
      | .ETDuration => Except.ok (.cDuration, .cString)
      | .ETJson => Except.ok (.cJson, .cString)
      | .ETString => Except.ok (.cString, .cString)
  | _ => Except.error (Err.invalidFormat "arity")

/-- Dispatcher for a DateTime target (`castAsTimeFunctionClass.getFunction`):
no special-casing, the declared evaluation class alone selects the
routine. -/
def castAsTimeFunctionClass.getFunction (args : List ArgType) : Except Err Sig :=
  match args with
  | [arg] =>
    match arg.evalType with
    | .ETInt => Except.ok (.cInt, .cTime)
    | .ETReal => Except.ok (.cReal, .cTime)
    | .ETDecimal => Except.ok (.cDecimal, .cTime)
    | .ETDatetime => Except.ok (.cTime, .cTime)
    | .ETTimestamp => Except.ok (.cTime, .cTime)
    | .ETDuration => Except.ok (.cDuration, .cTime)
    | .ETJson => Except.ok (.cJson, .cTime)
    | .ETString => Except.ok (.cString, .cTime)
  | _ => Except.error (Err.invalidFormat "arity")

/-- Dispatcher for a Duration target
(`castAsDurationFunctionClass.getFunction`): no special-casing, the declared
evaluation class alone selects the routine. -/
def castAsDurationFunctionClass.getFunction (args : List ArgType) : Except Err Sig :=
  match args with
  | [arg] =>
    match arg.evalType with
    | .ETInt => Except.ok (.cInt, .cDuration)
    | .ETReal => Except.ok (.cReal, .cDuration)
    | .ETDecimal => Except.ok (.cDecimal, .cDuration)
    | .ETDatetime => Except.ok (.cTime, .cDuration)
    | .ETTimestamp => Except.ok (.cTime, .cDuration)
    | .ETDuration => Except.ok (.cDuration, .cDuration)
    | .ETJson => Except.ok (.cJson, .cDuration)
    | .ETString => Except.ok (.cString, .cDuration)
  | _ => Except.error (Err.invalidFormat "arity")

/-- Dispatcher for a Json target (`castAsJSONFunctionClass.getFunction`): no
special-casing, the declared evaluation class alone selects the routine.
(For an `ETString` source the Go code additionally sets `ParseToJSONFlag` on
the attached return type; routine selection, embedded here, is unaffected.) -/
def castAsJSONFunctionClass.getFunction (args : List ArgType) : Except Err Sig :=
  match args with
  | [arg] =>
    match arg.evalType with
    | .ETInt => Except.ok (.cInt, .cJson)
    | .ETReal => Except.ok (.cReal, .cJson)
    | .ETDecimal => Except.ok (.cDecimal, .cJson)
    | .ETDatetime => Except.ok (.cTime, .cJson)
    | .ETTimestamp => Except.ok (.cTime, .cJson)
    | .ETDuration => Except.ok (.cDuration, .cJson)
    | .ETJson => Except.ok (.cJson, .cJson)
    | .ETString => Except.ok (.cString, .cJson)
  | _ => Except.error (Err.invalidFormat "arity")

/-- `builtinCastIntAsIntSig.evalInt`: returns the argument's integer view
directly, with no post-processing against the target type. -/
def builtinCastIntAsIntSig.evalInt (_tp : FieldType) (arg : Option Int) (sc : StmtCtx) :
    Ret Int :=
  match arg with
  | none => ⟨0, true, none, sc⟩
  | some v => ⟨v, false, none, sc⟩

/-- `builtinCastIntAsStringSig.evalString`: renders the integer under the
argument's signedness, then clamps to the target display length.
`argUnsigned` is `mysql.HasUnsignedFlag(b.args[0].GetType().Flag)`. -/
def builtinCastIntAsStringSig.evalString (tp : FieldType) (argUnsigned : Bool)
    (arg : Option Int) (sc : StmtCtx) : Ret String :=
  match arg with
  | none => ⟨"", true, none, sc⟩
  | some val =>
    let s := if !argUnsigned then toString val else toString (uint64ofInt64 val)
    let (res, e, sc2) := ProduceStrWithSpecifiedTp s tp sc
    ⟨res, false, e, sc2⟩

/-- `builtinCastDecimalAsIntSig.evalInt`: rounds the decimal half-to-even to
zero fractional digits, converts per the target signedness, and on overflow
reports through the sink with a warning carrying the original decimal
text. -/
def builtinCastDecimalAsIntSig.evalInt (tp : FieldType) (arg : Option MyDecimal)
    (sc : StmtCtx) : Ret Int :=
  match arg with
  | none => ⟨0, true, none, sc⟩
  | some val =>
    let rnd : MyDecimal := ⟨val.roundToIntHalfEven, 0⟩
    let (res, err) :=
      if tp.unsigned then
        let (u, e) := rnd.toUint
        (int64ofUint64 u, e)
      else rnd.toInt
    match err with
    | some e =>
      if e.isOverflow then
        let warnErr := Err.truncatedWrongVal "DECIMAL" val.str
        let (e2, sc2) := sc.handleOverflow e warnErr
        ⟨res, false, e2, sc2⟩
      else ⟨res, false, some e, sc⟩
    | none => ⟨res, false, none, sc⟩

/-- `builtinCastDecimalAsDecimalSig.evalDecimal`: copies the value and
passes it through the precision-adjustment step for the target type. -/
def builtinCastDecimalAsDecimalSig.evalDecimal (tp : FieldType) (arg : Option MyDecimal)
    (sc : StmtCtx) : Ret MyDecimal :=
  match arg with
  | none => ⟨⟨0, 0⟩, true, none, sc⟩
  | some d =>
    let (res, e, sc2) := ProduceDecWithSpecifiedTp d tp sc
    ⟨res, false, e, sc2⟩

/-- `builtinCastStringAsStringSig.evalString`: clamps the string to the
target display length. -/
def builtinCastStringAsStringSig.evalString (tp : FieldType) (arg : Option String)
    (sc : StmtCtx) : Ret String :=
  match arg with
  | none => ⟨"", true, none, sc⟩
  | some s =>
    let (res, e, sc2) := ProduceStrWithSpecifiedTp s tp sc
    ⟨res, false, e, sc2⟩

/-- `builtinCastStringAsIntSig.handleOverflow`: in a SELECT statement an
overflow clamps to the corresponding 64-bit endpoint (MinInt64 for a
negative input, MaxUint64 otherwise) and is reported through the sink with
a warning carrying the original string; otherwise the original result and
error pass through. -/
def builtinCastStringAsIntSig.handleOverflow (sc : StmtCtx) (origRes : Int)
    (origStr : String) (origErr : Option Err) (isNegative : Bool) :
    Int × Option Err × StmtCtx :=
  match origErr with
  | none => (origRes, none, sc)
  | some oe =>
    if sc.inSelectStmt && oe.isOverflow then
      let res := if isNegative then minInt64 else int64ofUint64 maxUint64
      let warnErr := Err.truncatedWrongVal "INTEGER" origStr
      let (e2, sc2) := sc.handleOverflow oe warnErr
      (res, e2, sc2)
    else (origRes, some oe, sc)

/-- `builtinCastStringAsIntSig.evalInt`: a hybrid or binary-literal argument
bypasses string parsing and uses the native integer view; otherwise the
string is trimmed, a string of length at least two starting with a minus is
parsed on the signed path (appending the negative-cast warning when the
parse succeeds), anything else parses on the unsigned path (appending the
signed-overflow warning when the value exceeds the signed range and the
target is signed), and overflow is handled per `handleOverflow`. -/
def builtinCastStringAsIntSig.evalInt (tp : FieldType) (argTp : ArgType)
    (intView : Option Int) (strView : Option String) (sc : StmtCtx) : Ret Int :=
  if argTp.hybrid || argTp.binaryLiteral then
    match intView with
    | none => ⟨0, true, none, sc⟩
    | some v => ⟨v, false, none, sc⟩
  else
    match strView with
    | none => ⟨0, true, none, sc⟩
    | some raw =>
      let val := trimString raw
      let isNegative := decide (1 < val.length) && headIsMinus val
      let (res1, err1, sc1) :=
        if isNegative then
          let (r, e) := StrToInt val
          match e with
          | none => (r, none, sc.appendWarning Err.castNegIntAsUnsigned)
          | some e => (r, some e, sc)
        else
          let (u, e) := StrToUint val
          let r := int64ofUint64 u
          if e = none && !tp.unsigned && decide (maxInt64nat < u) then
            (r, e, sc.appendWarning Err.castAsSignedOverflow)
          else (r, e, sc)
      let (res2, err2, sc2) :=
        builtinCastStringAsIntSig.handleOverflow sc1 res1 val err1 isNegative
      ⟨res2, false, err2, sc2⟩

/-- `builtinCastIntAsTimeSig.evalTime`: parses the numeric datetime
encoding, then zeroes the time-of-day when the target tag is DATE. -/
def builtinCastIntAsTimeSig.evalTime (tp : FieldType) (arg : Option Int) (sc : StmtCtx) :
    Ret TimeVal :=
  match arg with
  | none => ⟨zeroTimeVal tp.tp, true, none, sc⟩
  | some val =>
    let (res, err) := ParseTimeFromNum val tp.tp tp.decimal
    match err with
    | some e => ⟨res, true, some e, sc⟩
    | none =>
      if tp.tp = TypeTag.date then
        ⟨{ res with time := FromDate res.time.year res.time.month res.time.day 0 0 0 0 },
          false, none, sc⟩
      else ⟨res, false, none, sc⟩

/-- `builtinCastRealAsTimeSig.evalTime`: formats the real, parses the text,
then zeroes the time-of-day when the target tag is DATE. -/
def builtinCastRealAsTimeSig.evalTime (tp : FieldType) (arg : Option RealNum)
    (sc : StmtCtx) : Ret TimeVal :=
  match arg with
  | none => ⟨zeroTimeVal tp.tp, true, none, sc⟩
  | some val =>
    let (res, err) := ParseTime val.str tp.tp tp.decimal
    match err with
    | some e => ⟨zeroTimeVal tp.tp, true, some e, sc⟩
    | none =>
      if tp.tp = TypeTag.date then
        ⟨{ res with time := FromDate res.time.year res.time.month res.time.day 0 0 0 0 },
          false, none, sc⟩
      else ⟨res, false, none, sc⟩

/-- `builtinCastDecimalAsTimeSig.evalTime`: renders the decimal, parses the
text, then zeroes the time-of-day when the target tag is DATE. -/
def builtinCastDecimalAsTimeSig.evalTime (tp : FieldType) (arg : Option MyDecimal)
    (sc : StmtCtx) : Ret TimeVal :=
  match arg with
  | none => ⟨zeroTimeVal tp.tp, true, none, sc⟩
  | some val =>
    let (res, err) := ParseTime val.str tp.tp tp.decimal
    match err with
    | some e => ⟨res, false, some e, sc⟩
    | none =>
      if tp.tp = TypeTag.date then
        ⟨{ res with time := FromDate res.time.year res.time.month res.time.day 0 0 0 0 },
          false, none, sc⟩
      else ⟨res, false, none, sc⟩

/-- `builtinCastStringAsTimeSig.evalTime`: parses the string under the
target tag and precision, then zeroes the time-of-day when the target tag
is DATE. -/
def builtinCastStringAsTimeSig.evalTime (tp : FieldType) (arg : Option String)
    (sc : StmtCtx) : Ret TimeVal :=
  match arg with
  | none => ⟨zeroTimeVal tp.tp, true, none, sc⟩
  | some val =>
    let (res, err) := ParseTime val tp.tp tp.decimal
    match err with
    | some e => ⟨res, false, some e, sc⟩
    | none =>
      if tp.tp = TypeTag.date then
        ⟨{ res with time := FromDate res.time.year res.time.month res.time.day 0 0 0 0 },
          false, none, sc⟩
      else ⟨res, false, none, sc⟩

/-- `builtinCastTimeAsTimeSig.evalTime`: converts to the target temporal
tag, rounds the fractional seconds, then zeroes the time-of-day and retags
when the target tag is DATE. -/
def builtinCastTimeAsTimeSig.evalTime (tp : FieldType) (arg : Option TimeVal)
    (sc : StmtCtx) : Ret TimeVal :=
  match arg with
  | none => ⟨zeroTimeVal tp.tp, true, none, sc⟩
  | some val =>
    let (res0, errConv) := val.convert tp.tp
    match errConv with
    | some e => ⟨res0, true, some e, sc⟩
    | none =>
      let res1 := res0.roundFrac tp.decimal
      if tp.tp = TypeTag.date then
        ⟨{ res1 with
            time := FromDate res1.time.year res1.time.month res1.time.day 0 0 0 0,
            type := tp.tp }, false, none, sc⟩
      else ⟨res1, false, none, sc⟩

/-- `builtinCastDurationAsTimeSig.evalTime`: anchors the duration to the
current date via `ConvertToTime` under the target tag, then rounds the
fractional seconds.  (This routine has no explicit DATE truncation block of
its own.) -/
def builtinCastDurationAsTimeSig.evalTime (tp : FieldType) (arg : Option DurationVal)
    (sc : StmtCtx) : Ret TimeVal :=
  match arg with
  | none => ⟨zeroTimeVal tp.tp, true, none, sc⟩
  | some val =>
    let (res0, errConv) := val.convertToTime sc tp.tp
    match errConv with
    | some e => ⟨res0, false, some e, sc⟩
    | none => ⟨res0.roundFrac tp.decimal, false, none, sc⟩

/-- `builtinCastJSONAsTimeSig.evalTime`: unquotes the JSON scalar, parses
the text, then zeroes the time-of-day when the target tag is DATE. -/
def builtinCastJSONAsTimeSig.evalTime (tp : FieldType) (arg : Option JsonValue)
    (sc : StmtCtx) : Ret TimeVal :=
  match arg with
  | none => ⟨zeroTimeVal tp.tp, true, none, sc⟩
  | some v =>
    let (s, uerr) := v.unquote
    match uerr with
    | some e => ⟨zeroTimeVal tp.tp, false, some e, sc⟩
    | none =>
      let (res, err) := ParseTime s tp.tp tp.decimal
      match err with
      | some e => ⟨res, false, some e, sc⟩
      | none =>
        if tp.tp = TypeTag.date then
          ⟨{ res with time := FromDate res.time.year res.time.month res.time.day 0 0 0 0 },
            false, none, sc⟩
        else ⟨res, false, none, sc⟩

/-- `builtinCastDecimalAsDurationSig.evalDuration`: renders the decimal and
parses it as a duration; a truncation diagnostic goes through the sink and,
when the parse resolved to the literal zero duration, the outcome is SQL
NULL.  (On a null argument this routine returns `isNull` false, as the Go
code does.) -/
def builtinCastDecimalAsDurationSig.evalDuration (tp : FieldType) (arg : Option MyDecimal)
    (sc : StmtCtx) : Ret DurationVal :=
  match arg with
  | none => ⟨ZeroDuration, false, none, sc⟩
  | some val =>
    let (res, err) := ParseDuration val.str tp.decimal
    match err with
    | some e =>
      if e.isTruncatedWrongVal then
        let (e2, sc2) := sc.handleTruncate e
        if res = ZeroDuration then ⟨res, true, e2, sc2⟩
        else ⟨res, false, e2, sc2⟩
      else ⟨res, false, some e, sc⟩
    | none => ⟨res, false, none, sc⟩

/-- `builtinCastStringAsDurationSig.evalDuration`: parses the string as a
duration; a truncation diagnostic goes through the sink and, when the parse
resolved to the literal zero duration, the outcome is SQL NULL. -/
def builtinCastStringAsDurationSig.evalDuration (tp : FieldType) (arg : Option String)
    (sc : StmtCtx) : Ret DurationVal :=
  match arg with
  | none => ⟨ZeroDuration, true, none, sc⟩
  | some val =>
    let (res, err) := ParseDuration val tp.decimal
    match err with
    | some e =>
      if e.isTruncatedWrongVal then
        let (e2, sc2) := sc.handleTruncate e
        if res = ZeroDuration then ⟨res, true, e2, sc2⟩
        else ⟨res, false, e2, sc2⟩
      else ⟨res, false, some e, sc⟩
    | none => ⟨res, false, none, sc⟩

/-- `builtinCastJSONAsDurationSig.evalDuration`: unquotes the JSON scalar
and parses it as a duration; a truncation diagnostic goes through the sink,
but the routine keeps `isNull` false — it has no zero-duration NULL
check. -/
def builtinCastJSONAsDurationSig.evalDuration (tp : FieldType) (arg : Option JsonValue)
    (sc : StmtCtx) : Ret DurationVal :=
  match arg with
  | none => ⟨ZeroDuration, true, none, sc⟩
  | some v =>
    let (s, uerr) := v.unquote
    match uerr with
    | some e => ⟨ZeroDuration, false, some e, sc⟩
    | none =>
      let (res, err) := ParseDuration s tp.decimal
      match err with
      | some e =>
        if e.isTruncatedWrongVal then
          let (e2, sc2) := sc.handleTruncate e
          ⟨res, false, e2, sc2⟩
        else ⟨res, false, some e, sc⟩
      | none => ⟨res, false, none, sc⟩

/-- `builtinCastJSONAsJSONSig.evalJSON`: returns the argument's JSON view
directly, with no post-processing against the target type. -/
def builtinCastJSONAsJSONSig.evalJSON (_tp : FieldType) (arg : Option JsonValue)
    (sc : StmtCtx) : Ret JsonValue :=
  match arg with
  | none => ⟨JsonValue.jbool false, true, none, sc⟩
  | some v => ⟨v, false, none, sc⟩

/-- `builtinCastJSONAsStringSig.evalString`: returns the JSON serialization
directly, with no display-length clamping against the target type. -/
def builtinCastJSONAsStringSig.evalString (_tp : FieldType) (arg : Option JsonValue)
    (sc : StmtCtx) : Ret String :=
  match arg with
  | none => ⟨"", true, none, sc⟩
  | some v => ⟨v.str, false, none, sc⟩

/-- `builtinCastJSONAsDecimalSig.evalDecimal`: coerces the JSON scalar to a
number through the float intermediate, with no precision adjustment against
the target type. -/
def builtinCastJSONAsDecimalSig.evalDecimal (_tp : FieldType) (arg : Option JsonValue)
    (sc : StmtCtx) : Ret MyDecimal :=
  match arg with
  | none => ⟨⟨0, 0⟩, true, none, sc⟩
  | some v =>
    let (f, e) := ConvertJSONToFloat v
    match e with
    | some err => ⟨⟨0, 0⟩, false, some err, sc⟩
    | none => ⟨f.dec, false, none, sc⟩

/-- The time-of-day component of the temporal value is entirely zero. -/
def zeroClock (t : TimeVal) : Prop :=
  t.time.hour = 0 ∧ t.time.minute = 0 ∧ t.time.second = 0 ∧ t.time.microsecond = 0

/-- A lenient statement context: inside a SELECT statement, truncation
reported as warning, with an arbitrary current date and no accumulated
warnings. -/
def scLenient : StmtCtx := ⟨true, true, 2023, 6, 15, []⟩

/-- A strict statement context: not in a SELECT statement, truncation fatal,
with an arbitrary current date and no accumulated warnings. -/
def scStrict : StmtCtx := ⟨false, false, 2023, 6, 15, []⟩

/-- A plain string-class argument: not hybrid, not a binary literal. -/
def argString : ArgType := ⟨EvalType.ETString, false, false⟩

/-- An unsigned BIGINT target type. -/
def tpUnsignedLonglong : FieldType := ⟨TypeTag.longlong, none, some 0, true, false, false⟩

/-- A signed BIGINT target type. -/
def tpSignedLonglong : FieldType := ⟨TypeTag.longlong, none, some 0, false, false, false⟩

/-- A DATE target type. -/
def tpDate : FieldType := ⟨TypeTag.date, none, some 0, false, false, false⟩

/-- A Duration target type with zero fractional precision. -/
def tpDur : FieldType := ⟨TypeTag.durationTag, none, some 0, false, false, false⟩

/-- A DECIMAL(10,2) target type. -/
def tpDec102 : FieldType := ⟨TypeTag.newDecimal, some 10, some 2, false, false, false⟩

/-- A string target type of display length 1. -/
def tpStr1 : FieldType := ⟨TypeTag.varString, some 1, none, false, false, false⟩

/-- A string target type of display length 20. -/
def tpStr20 : FieldType := ⟨TypeTag.varString, some 20, none, false, false, false⟩

/-- C9: casting the Decimal(10,2) value 12.34 to a Decimal(10,2) target
returns 12.34 unchanged — not null, no error — and the result is exactly
what the precision-adjustment step every Decimal-target conversion applies
produces for it. -/
theorem claim_C9 (sc : StmtCtx) :
    builtinCastDecimalAsDecimalSig.evalDecimal tpDec102 (some ⟨1234, 2⟩) sc =
      ⟨⟨1234, 2⟩, false, none, sc⟩ ∧
    (builtinCastDecimalAsDecimalSig.evalDecimal tpDec102 (some ⟨1234, 2⟩) sc).res =
      (ProduceDecWithSpecifiedTp ⟨1234, 2⟩ tpDec102 sc).1 := by
  exact ⟨rfl, rfl⟩

/-- C7: dispatcher source-classification: for an Integer target a hybrid or
binary-literal source selects Int-to-Int; for a Real or Decimal target a
binary-literal source selects the same-class identity routine while a
non-binary hybrid source selects the Int-to-target routine; for a String
target a hybrid or binary-literal source selects String-to-String; for the
DateTime, Duration and Json targets the declared evaluation class alone
selects the routine. -/
theorem claim_C7 (arg : ArgType) :
    (arg.hybrid = true ∨ arg.binaryLiteral = true →
      castAsIntFunctionClass.getFunction [arg] =
        Except.ok (SrcClass.cInt, SrcClass.cInt) ∧
      castAsStringFunctionClass.getFunction [arg] =
        Except.ok (SrcClass.cString, SrcClass.cString)) ∧
    (arg.binaryLiteral = true →
      castAsRealFunctionClass.getFunction [arg] =
        Except.ok (SrcClass.cReal, SrcClass.cReal) ∧
      castAsDecimalFunctionClass.getFunction [arg] =
        Except.ok (SrcClass.cDecimal, SrcClass.cDecimal)) ∧
    (arg.hybrid = true → arg.binaryLiteral = false →
      castAsRealFunctionClass.getFunction [arg] =
        Except.ok (SrcClass.cInt, SrcClass.cReal) ∧
      castAsDecimalFunctionClass.getFunction [arg] =
        Except.ok (SrcClass.cInt, SrcClass.cDecimal)) ∧
    castAsTimeFunctionClass.getFunction [arg] =
      Except.ok (classOfEvalType arg.evalType, SrcClass.cTime) ∧
    castAsDurationFunctionClass.getFunction [arg] =
      Except.ok (classOfEvalType arg.evalType, SrcClass.cDuration) ∧
    castAsJSONFunctionClass.getFunction [arg] =
      Except.ok (classOfEvalType arg.evalType, SrcClass.cJson) := by
  obtain ⟨et, hy, bl⟩ := arg
  cases et <;> cases hy <;> cases bl <;>
    simp [castAsIntFunctionClass.getFunction, castAsRealFunctionClass.getFunction,
      castAsDecimalFunctionClass.getFunction, castAsStringFunctionClass.getFunction,
      castAsTimeFunctionClass.getFunction, castAsDurationFunctionClass.getFunction,
      castAsJSONFunctionClass.getFunction, classOfEvalType]

/-- C7 witness: the dispatch table evaluated at concrete argument
descriptors. -/
theorem claim_C7_witness :
    castAsIntFunctionClass.getFunction [⟨EvalType.ETInt, true, false⟩] =
      Except.ok (SrcClass.cInt, SrcClass.cInt) ∧
    castAsRealFunctionClass.getFunction [⟨EvalType.ETInt, true, false⟩] =
      Except.ok (SrcClass.cInt, SrcClass.cReal) ∧
    castAsRealFunctionClass.getFunction [⟨EvalType.ETReal, false, true⟩] =
      Except.ok (SrcClass.cReal, SrcClass.cReal) ∧
    castAsTimeFunctionClass.getFunction [⟨EvalType.ETJson, false, false⟩] =
      Except.ok (SrcClass.cJson, SrcClass.cTime) :=
  ⟨((claim_C7 ⟨EvalType.ETInt, true, false⟩).1 (Or.inl rfl)).1,
    ((claim_C7 ⟨EvalType.ETInt, true, false⟩).2.2.1 rfl rfl).1,
    ((claim_C7 ⟨EvalType.ETReal, false, true⟩).2.1 rfl).1,
    (claim_C7 ⟨EvalType.ETJson, false, false⟩).2.2.2.1⟩

/-- C4 counterexample: the Json-to-String routine does not clamp to the
target display length: casting the JSON string scalar abc to a string
target of display length 1 returns the full five-character serialization,
refuting the claim that every routine post-processes its result to satisfy
the target length. -/
theorem claim_C4_counterexample :
    tpStr1.flen = some 1 ∧
    (builtinCastJSONAsStringSig.evalString tpStr1
        (some (JsonValue.jstring "abc")) scLenient).res = "\x22abc\x22" ∧
    ((builtinCastJSONAsStringSig.evalString tpStr1
        (some (JsonValue.jstring "abc")) scLenient).res).length = 5 := by
  exact ⟨rfl, rfl, rfl⟩

/-- C4 amended: most conversion routines post-process their result against
the target type spec, and in particular Decimal-to-Decimal and
String-to-String do; but the identity-shaped routines (Int-to-Int,
Json-to-Json) return the source value untouched, Json-to-String returns the
JSON serialization without display-length clamping, and Json-to-Decimal
returns the coerced number without precision adjustment — their results do
not depend on the target type spec at all. -/
theorem claim_C4_amended (tp tp2 : FieldType) (sc : StmtCtx) :
    (∀ v : Int, builtinCastIntAsIntSig.evalInt tp (some v) sc = ⟨v, false, none, sc⟩) ∧
    (∀ j : JsonValue,
      builtinCastJSONAsJSONSig.evalJSON tp (some j) sc = ⟨j, false, none, sc⟩) ∧
    (∀ j : JsonValue,
      (builtinCastJSONAsStringSig.evalString tp (some j) sc).res = j.str) ∧
    (∀ j : JsonValue,
      (builtinCastJSONAsDecimalSig.evalDecimal tp (some j) sc).res =
        (builtinCastJSONAsDecimalSig.evalDecimal tp2 (some j) sc).res) ∧
    (∀ d : MyDecimal,
      (builtinCastDecimalAsDecimalSig.evalDecimal tp (some d) sc).res =
        (ProduceDecWithSpecifiedTp d tp sc).1) ∧
    (∀ s : String,
      (builtinCastStringAsStringSig.evalString tp (some s) sc).res =
        (ProduceStrWithSpecifiedTp s tp sc).1) := by
  refine ⟨fun v => rfl, fun j => rfl, fun j => rfl, fun j => ?_, fun d => rfl, fun s => rfl⟩
  unfold builtinCastJSONAsDecimalSig.evalDecimal
  rcases ConvertJSONToFloat j with ⟨f, e⟩
  cases e <;> rfl

/-- C6 counterexample: casting the string minus-one to a SIGNED integer
target also appends the negative-cast warning, refuting the claim that the
warning is appended exactly when the target is unsigned. -/
theorem claim_C6_counterexample :
    tpSignedLonglong.unsigned = false ∧
    (builtinCastStringAsIntSig.evalInt tpSignedLonglong argString none
        (some "-1") scLenient).sc.warnings = [Err.castNegIntAsUnsigned] := by
  exact ⟨rfl, by decide⟩

/-- C6 amended: String-to-Integer trims whitespace first; every trimmed
string of length at least two starting with a minus is parsed on the signed
path and the negative-cast warning is appended whenever that parse succeeds,
regardless of the target signedness (not only for unsigned targets), and is
not appended when the signed parse fails; every other string parses on the
unsigned path first and the appended warning is exactly the signed-overflow
warning when the parse succeeds, the target is signed and the value exceeds
the signed range, exactly the lenient overflow-truncation warning when the
parse overflows in SELECT context, and nothing otherwise; casting minus-one
to an unsigned target yields 18446744073709551615 together with the
warning, never silently. -/
theorem claim_C6_amended (tp : FieldType) (sc : StmtCtx) :
    (∀ s : String,
      (decide (1 < (trimString s).length) && headIsMinus (trimString s)) = true →
      (StrToInt (trimString s)).2 = none →
      builtinCastStringAsIntSig.evalInt tp argString none (some s) sc =
        ⟨(StrToInt (trimString s)).1, false, none,
          sc.appendWarning Err.castNegIntAsUnsigned⟩) ∧
    (∀ (s : String) (e : Err),
      (decide (1 < (trimString s).length) && headIsMinus (trimString s)) = true →
      (StrToInt (trimString s)).2 = some e →
      ∃ ws : List Err,
        (builtinCastStringAsIntSig.evalInt tp argString none (some s) sc).sc.warnings
          = sc.warnings ++ ws ∧ Err.castNegIntAsUnsigned ∉ ws) ∧
    (∀ s : String,
      (decide (1 < (trimString s).length) && headIsMinus (trimString s)) = false →
      (builtinCastStringAsIntSig.evalInt tp argString none (some s) sc).sc.warnings
        = sc.warnings ++
          (if (StrToUint (trimString s)).2 = none ∧ tp.unsigned = false ∧
              maxInt64nat < (StrToUint (trimString s)).1
           then [Err.castAsSignedOverflow]
           else
             match (StrToUint (trimString s)).2 with
             | some oe =>
               if oe.isOverflow = true ∧ sc.inSelectStmt = true
               then [Err.truncatedWrongVal "INTEGER" (trimString s)]
               else []
             | none => [])) ∧
    builtinCastStringAsIntSig.evalInt tp argString none (some "-1") sc =
      ⟨-1, false, none, sc.appendWarning Err.castNegIntAsUnsigned⟩ ∧
    uint64ofInt64 (-1) = 18446744073709551615 ∧
    builtinCastStringAsIntSig.evalInt tp argString none (some " -1 ") sc =
      builtinCastStringAsIntSig.evalInt tp argString none (some "-1") sc := by
  refine ⟨fun s hneg hp => ?_, fun s e hneg hp => ?_, fun s hneg => ?_, rfl, by decide, rfl⟩
  · rcases hpair : StrToInt (trimString s) with ⟨r, e⟩
    rw [hpair] at hp
    simp only at hp
    subst hp
    simp [builtinCastStringAsIntSig.evalInt, builtinCastStringAsIntSig.handleOverflow,
      argString, hneg, hpair]
  · rcases hpair : StrToInt (trimString s) with ⟨r, e2⟩
    rw [hpair] at hp
    simp only at hp
    subst hp
    by_cases hov : e.isOverflow = true
    · by_cases hsel : sc.inSelectStmt = true
      · refine ⟨[Err.truncatedWrongVal "INTEGER" (trimString s)], ?_, by simp⟩
        simp [builtinCastStringAsIntSig.evalInt, builtinCastStringAsIntSig.handleOverflow,
          StmtCtx.handleOverflow, argString, hneg, hpair, hov, hsel, StmtCtx.appendWarning]
      · refine ⟨[], ?_, by simp⟩
        simp [builtinCastStringAsIntSig.evalInt, builtinCastStringAsIntSig.handleOverflow,
          StmtCtx.handleOverflow, argString, hneg, hpair, hov, hsel, StmtCtx.appendWarning]
    · refine ⟨[], ?_, by simp⟩
      simp [builtinCastStringAsIntSig.evalInt, builtinCastStringAsIntSig.handleOverflow,
        StmtCtx.handleOverflow, argString, hneg, hpair, hov, StmtCtx.appendWarning]
  · rcases hu : StrToUint (trimString s) with ⟨u, e⟩
    rcases e with _ | oe
    · by_cases hso : tp.unsigned = false ∧ maxInt64nat < u
      · simp [builtinCastStringAsIntSig.evalInt, builtinCastStringAsIntSig.handleOverflow,
          argString, hneg, hu, hso, StmtCtx.appendWarning]
      · simp [builtinCastStringAsIntSig.evalInt, builtinCastStringAsIntSig.handleOverflow,
          argString, hneg, hu, hso, StmtCtx.appendWarning]
    · by_cases hov : oe.isOverflow = true
      · by_cases hsel : sc.inSelectStmt = true
        · simp [builtinCastStringAsIntSig.evalInt, builtinCastStringAsIntSig.handleOverflow,
            StmtCtx.handleOverflow, argString, hneg, hu, hov, hsel, StmtCtx.appendWarning]
        · simp [builtinCastStringAsIntSig.evalInt, builtinCastStringAsIntSig.handleOverflow,
            StmtCtx.handleOverflow, argString, hneg, hu, hov, hsel, StmtCtx.appendWarning]
      · simp [builtinCastStringAsIntSig.evalInt, builtinCastStringAsIntSig.handleOverflow,
          StmtCtx.handleOverflow, argString, hneg, hu, hov, StmtCtx.appendWarning]

/-- C6 witness: the amended rules evaluated at concrete strings: a negative
parse that succeeds on a signed target, an overflowing negative parse, an
unsigned value beyond the signed range on a signed target, and a small
value on an unsigned target. -/
theorem claim_C6_witness :
    builtinCastStringAsIntSig.evalInt tpSignedLonglong argString none
        (some "-1") scLenient =
      ⟨-1, false, none, scLenient.appendWarning Err.castNegIntAsUnsigned⟩ ∧
    (∃ ws : List Err,
      (builtinCastStringAsIntSig.evalInt tpSignedLonglong argString none
          (some "-99999999999999999999") scLenient).sc.warnings
        = scLenient.warnings ++ ws ∧ Err.castNegIntAsUnsigned ∉ ws) ∧
    (builtinCastStringAsIntSig.evalInt tpSignedLonglong argString none
        (some "9223372036854775808") scLenient).sc.warnings
      = scLenient.warnings ++ [Err.castAsSignedOverflow] ∧
    (builtinCastStringAsIntSig.evalInt tpUnsignedLonglong argString none
        (some "123") scLenient).sc.warnings = scLenient.warnings ++ [] := by
  have h := claim_C6_amended tpSignedLonglong scLenient
  have hu := claim_C6_amended tpUnsignedLonglong scLenient
  refine ⟨?_, h.2.1 "-99999999999999999999" Err.overflow (by decide) (by decide), ?_, ?_⟩
  · rw [h.1 "-1" (by decide) (by decide)]
    decide
  · rw [h.2.2.1 "9223372036854775808" (by decide)]
    decide
  · rw [hu.2.2.1 "123" (by decide)]
    decide

/-- C1 counterexample: a Json source whose unquoted text parses to the
literal zero duration with a truncation diagnostic is NOT turned into SQL
NULL by the Json-to-Duration routine — it keeps `isNull` false — refuting
the claim that the NULL-on-truncated-zero rule applies uniformly to
Decimal, String and Json sources. -/
theorem claim_C1_counterexample :
    (ParseDuration "x" tpDur.decimal).1 = ZeroDuration ∧
    (ParseDuration "x" tpDur.decimal).2 = some (Err.truncatedWrongVal "time" "x") ∧
    (builtinCastJSONAsDurationSig.evalDuration tpDur
        (some (JsonValue.jstring "x")) scLenient).isNull = false ∧
    (builtinCastStringAsDurationSig.evalDuration tpDur
        (some "x") scLenient).isNull = true := by
  exact ⟨rfl, rfl, rfl, rfl⟩

/-- C1 amended: for Decimal and String sources cast to a Duration target, a
parse yielding the literal zero duration together with a truncation
diagnostic is treated as SQL NULL; the Json-to-Duration routine does not
apply this rule and always returns a non-null outcome on a non-null
argument. -/
theorem claim_C1_amended (tp : FieldType) (sc : StmtCtx) :
    (∀ (s : String) (e : Err),
      ParseDuration s tp.decimal = (ZeroDuration, some e) →
      e.isTruncatedWrongVal = true →
      (builtinCastStringAsDurationSig.evalDuration tp (some s) sc).isNull = true) ∧
    (∀ (d : MyDecimal) (e : Err),
      ParseDuration d.str tp.decimal = (ZeroDuration, some e) →
      e.isTruncatedWrongVal = true →
      (builtinCastDecimalAsDurationSig.evalDuration tp (some d) sc).isNull = true) ∧
    (∀ v : JsonValue,
      (builtinCastJSONAsDurationSig.evalDuration tp (some v) sc).isNull = false) := by
  refine ⟨fun s e hp htr => ?_, fun d e hp htr => ?_, fun v => ?_⟩
  · simp [builtinCastStringAsDurationSig.evalDuration, hp, htr]
  · simp [builtinCastDecimalAsDurationSig.evalDuration, hp, htr]
  · simp only [builtinCastJSONAsDurationSig.evalDuration]
    split <;> first
      | rfl
      | (split <;> first
          | rfl
          | (split <;> rfl))

/-- C1 witness: the amended rule evaluated at a malformed literal: the
String and Decimal routines return NULL, the Json routine does not. -/
theorem claim_C1_witness :
    (builtinCastStringAsDurationSig.evalDuration tpDur (some "x") scLenient).isNull = true ∧
    (builtinCastDecimalAsDurationSig.evalDuration tpDur
        (some ⟨1234, 2⟩) scLenient).isNull = true ∧
    (builtinCastJSONAsDurationSig.evalDuration tpDur
        (some (JsonValue.jstring "x")) scLenient).isNull = false := by
  have h := claim_C1_amended tpDur scLenient
  exact ⟨h.1 "x" (Err.truncatedWrongVal "time" "x") (by decide) (by decide),
    h.2.1 ⟨1234, 2⟩ (Err.truncatedWrongVal "time" "12.34") (by decide) (by decide),
    h.2.2 (JsonValue.jstring "x")⟩

/-- Helper for C10: when the trimmed string is not classified negative, the
string-to-int routine can only append the signed-overflow or
truncated-wrong-value warnings, never the negative-cast warning. -/
theorem c10_nonneg_warnings (tp : FieldType) (sc : StmtCtx) (s : String)
    (hneg : (decide (1 < (trimString s).length) && headIsMinus (trimString s)) = false) :
    ∃ ws : List Err,
      (builtinCastStringAsIntSig.evalInt tp argString none (some s) sc).sc.warnings
        = sc.warnings ++ ws ∧ Err.castNegIntAsUnsigned ∉ ws := by
  rcases hu : StrToUint (trimString s) with ⟨u, e⟩
  rcases e with _ | oe
  · by_cases hso : tp.unsigned = false ∧ maxInt64nat < u
    · refine ⟨[Err.castAsSignedOverflow], ?_, by simp⟩
      simp [builtinCastStringAsIntSig.evalInt, builtinCastStringAsIntSig.handleOverflow,
        argString, hneg, hu, hso, StmtCtx.appendWarning]
    · refine ⟨[], ?_, by simp⟩
      simp [builtinCastStringAsIntSig.evalInt, builtinCastStringAsIntSig.handleOverflow,
        argString, hneg, hu, hso, StmtCtx.appendWarning]
  · by_cases hsel : sc.inSelectStmt = true
    · by_cases hov : oe.isOverflow = true
      · refine ⟨[Err.truncatedWrongVal "INTEGER" (trimString s)], ?_, by simp⟩
        simp [builtinCastStringAsIntSig.evalInt, builtinCastStringAsIntSig.handleOverflow,
          StmtCtx.handleOverflow, argString, hneg, hu, hsel, hov, StmtCtx.appendWarning]
      · refine ⟨[], ?_, by simp⟩
        simp [builtinCastStringAsIntSig.evalInt, builtinCastStringAsIntSig.handleOverflow,
          StmtCtx.handleOverflow, argString, hneg, hu, hsel, hov, StmtCtx.appendWarning]
    · refine ⟨[], ?_, by simp⟩
      simp [builtinCastStringAsIntSig.evalInt, builtinCastStringAsIntSig.handleOverflow,
        StmtCtx.handleOverflow, argString, hneg, hu, hsel, StmtCtx.appendWarning]

/-- C10: only a trimmed string of length at least two whose first byte is a
minus sign is treated as negative; the one-character minus string goes down
the non-negative unsigned path, yielding best-effort zero with a truncation
error, no appended warning, and in general a non-negative-classified string
never triggers the negative-cast-as-unsigned warning. -/
theorem claim_C10 (tp : FieldType) (sc : StmtCtx) :
    builtinCastStringAsIntSig.evalInt tp argString none (some "-") sc =
      ⟨0, false, some Err.truncated, sc⟩ ∧
    StrToUint "-" = (0, some Err.truncated) ∧
    (∀ s : String,
      ¬(1 < (trimString s).length ∧ headIsMinus (trimString s) = true) →
      ∃ ws : List Err,
        (builtinCastStringAsIntSig.evalInt tp argString none (some s) sc).sc.warnings
          = sc.warnings ++ ws ∧ Err.castNegIntAsUnsigned ∉ ws) := by
  refine ⟨?_, rfl, fun s h => ?_⟩
  · obtain ⟨sel, tw, y, m, d, ws⟩ := sc
    cases sel <;> rfl
  · refine c10_nonneg_warnings tp sc s ?_
    cases hm : headIsMinus (trimString s)
    · simp
    · simp only [Bool.and_true]
      exact decide_eq_false fun hlt => h ⟨hlt, hm⟩

/-- C10 witness: the minus string evaluated in a concrete context. -/
theorem claim_C10_witness :
    builtinCastStringAsIntSig.evalInt tpSignedLonglong argString none
        (some "-") scLenient = ⟨0, false, some Err.truncated, scLenient⟩ ∧
    ∃ ws : List Err,
      (builtinCastStringAsIntSig.evalInt tpSignedLonglong argString none
          (some "-") scLenient).sc.warnings = scLenient.warnings ++ ws ∧
      Err.castNegIntAsUnsigned ∉ ws := by
  have h := claim_C10 tpSignedLonglong scLenient
  exact ⟨h.1, h.2.2 "-" (by decide)⟩

/-- C3: a String-to-Integer parse that overflows clamps to the
corresponding 64-bit endpoint (MinInt64 for negative inputs, MaxUint64
otherwise) with a warning exactly in lenient (SELECT) context, and stays a
fatal overflow error in strict context; in particular the unsigned example
string one-past-MaxUint64 yields MaxUint64 with a warning when lenient and
a fatal overflow when strict. -/
theorem claim_C3 (sc : StmtCtx) :
    (∀ (origRes : Int) (s : String) (isNeg : Bool),
      sc.inSelectStmt = true →
      builtinCastStringAsIntSig.handleOverflow sc origRes s (some Err.overflow) isNeg =
        ((if isNeg then minInt64 else int64ofUint64 maxUint64), none,
          sc.appendWarning (Err.truncatedWrongVal "INTEGER" s))) ∧
    (∀ (origRes : Int) (s : String) (isNeg : Bool),
      sc.inSelectStmt = false →
      builtinCastStringAsIntSig.handleOverflow sc origRes s (some Err.overflow) isNeg =
        (origRes, some Err.overflow, sc)) ∧
    builtinCastStringAsIntSig.evalInt tpUnsignedLonglong argString none
        (some "18446744073709551616") scLenient =
      ⟨int64ofUint64 maxUint64, false, none,
        scLenient.appendWarning (Err.truncatedWrongVal "INTEGER" "18446744073709551616")⟩ ∧
    uint64ofInt64 (int64ofUint64 maxUint64) = maxUint64 ∧
    (builtinCastStringAsIntSig.evalInt tpUnsignedLonglong argString none
        (some "18446744073709551616") scStrict).err = some Err.overflow := by
  refine ⟨fun origRes s isNeg h => ?_, fun origRes s isNeg h => ?_, rfl, by decide, rfl⟩
  · simp [builtinCastStringAsIntSig.handleOverflow, StmtCtx.handleOverflow,
      Err.isOverflow, h]
  · simp [builtinCastStringAsIntSig.handleOverflow, StmtCtx.handleOverflow,
      Err.isOverflow, h]

/-- C3 witness: the overflow handler evaluated in a concrete lenient and a
concrete strict context. -/
theorem claim_C3_witness :
    builtinCastStringAsIntSig.handleOverflow scLenient 0 "9999999999999999999999"
        (some Err.overflow) false =
      (int64ofUint64 maxUint64, none,
        scLenient.appendWarning (Err.truncatedWrongVal "INTEGER" "9999999999999999999999")) ∧
    builtinCastStringAsIntSig.handleOverflow scStrict 7 "9999999999999999999999"
        (some Err.overflow) true =
      (7, some Err.overflow, scStrict) :=
  ⟨(claim_C3 scLenient).1 0 "9999999999999999999999" false rfl,
    (claim_C3 scStrict).2.1 7 "9999999999999999999999" true rfl⟩

/-- C5: Decimal-to-Integer first rounds half-to-even to zero fractional
digits and then converts per the target flag — through `ToInt` for a signed
target and through `ToUint` reinterpreted as an `int64` for an unsigned
target; decimal 2.5 yields 2 and decimal 3.5 yields 4 on either target, and
on overflow in lenient context the appended warning carries the original
decimal value's text, again on either target. -/
theorem claim_C5 (tp : FieldType) (sc : StmtCtx) :
    ((builtinCastDecimalAsIntSig.evalInt tp (some ⟨25, 1⟩) sc).res = 2 ∧
      (builtinCastDecimalAsIntSig.evalInt tp (some ⟨35, 1⟩) sc).res = 4) ∧
    (tp.unsigned = false → ∀ d : MyDecimal,
      (builtinCastDecimalAsIntSig.evalInt tp (some d) sc).res =
        ((⟨d.roundToIntHalfEven, 0⟩ : MyDecimal).toInt).1) ∧
    (tp.unsigned = true → ∀ d : MyDecimal,
      (builtinCastDecimalAsIntSig.evalInt tp (some d) sc).res =
        int64ofUint64 ((⟨d.roundToIntHalfEven, 0⟩ : MyDecimal).toUint).1) ∧
    (∀ d : MyDecimal, tp.unsigned = false → sc.inSelectStmt = true →
      ((⟨d.roundToIntHalfEven, 0⟩ : MyDecimal).toInt).2 = some Err.overflow →
      (builtinCastDecimalAsIntSig.evalInt tp (some d) sc).sc.warnings =
        sc.warnings ++ [Err.truncatedWrongVal "DECIMAL" d.str]) ∧
    (∀ d : MyDecimal, tp.unsigned = true → sc.inSelectStmt = true →
      ((⟨d.roundToIntHalfEven, 0⟩ : MyDecimal).toUint).2 = some Err.overflow →
      (builtinCastDecimalAsIntSig.evalInt tp (some d) sc).sc.warnings =
        sc.warnings ++ [Err.truncatedWrongVal "DECIMAL" d.str]) := by
  obtain ⟨ttag, tflen, tdec, tuns, tbool, tjson⟩ := tp
  refine ⟨?_, fun h d => ?_, fun h d => ?_, fun d h hsel hov => ?_, fun d h hsel hov => ?_⟩
  · cases tuns <;> exact ⟨rfl, rfl⟩
  · have h2 : tuns = false := h
    subst h2
    rcases he : (⟨d.roundToIntHalfEven, 0⟩ : MyDecimal).toInt with ⟨r, err⟩
    rcases err with _ | e
    · simp [builtinCastDecimalAsIntSig.evalInt, he]
    · cases hov : e.isOverflow <;>
        simp [builtinCastDecimalAsIntSig.evalInt, he, hov, StmtCtx.handleOverflow]
  · have h2 : tuns = true := h
    subst h2
    rcases he : (⟨d.roundToIntHalfEven, 0⟩ : MyDecimal).toUint with ⟨u, err⟩
    rcases err with _ | e
    · simp [builtinCastDecimalAsIntSig.evalInt, he]
    · cases hov : e.isOverflow <;>
        simp [builtinCastDecimalAsIntSig.evalInt, he, hov, StmtCtx.handleOverflow]
  · have h2 : tuns = false := h
    subst h2
    rcases he : (⟨d.roundToIntHalfEven, 0⟩ : MyDecimal).toInt with ⟨r, err⟩
    rw [he] at hov
    simp only at hov
    subst hov
    simp [builtinCastDecimalAsIntSig.evalInt, he, Err.isOverflow,
      StmtCtx.handleOverflow, StmtCtx.appendWarning, hsel]
  · have h2 : tuns = true := h
    subst h2
    rcases he : (⟨d.roundToIntHalfEven, 0⟩ : MyDecimal).toUint with ⟨u, err⟩
    rw [he] at hov
    simp only at hov
    subst hov
    simp [builtinCastDecimalAsIntSig.evalInt, he, Err.isOverflow,
      StmtCtx.handleOverflow, StmtCtx.appendWarning, hsel]

/-- C5 witness: the rounding examples on a signed and on an unsigned
target, the general clauses at 2.5, and overflowing decimals whose warning
carries the original text on both targets, in a concrete lenient
context. -/
theorem claim_C5_witness :
    (builtinCastDecimalAsIntSig.evalInt tpSignedLonglong (some ⟨25, 1⟩) scLenient).res = 2 ∧
    (builtinCastDecimalAsIntSig.evalInt tpSignedLonglong (some ⟨35, 1⟩) scLenient).res = 4 ∧
    (builtinCastDecimalAsIntSig.evalInt tpUnsignedLonglong (some ⟨25, 1⟩) scLenient).res =
      int64ofUint64 ((⟨(⟨25, 1⟩ : MyDecimal).roundToIntHalfEven, 0⟩ : MyDecimal).toUint).1 ∧
    (builtinCastDecimalAsIntSig.evalInt tpSignedLonglong (some ⟨35, 1⟩) scLenient).res =
      ((⟨(⟨35, 1⟩ : MyDecimal).roundToIntHalfEven, 0⟩ : MyDecimal).toInt).1 ∧
    (builtinCastDecimalAsIntSig.evalInt tpSignedLonglong
        (some ⟨-(10 ^ 19 : Int), 0⟩) scLenient).sc.warnings =
      scLenient.warnings ++
        [Err.truncatedWrongVal "DECIMAL" (MyDecimal.str ⟨-(10 ^ 19 : Int), 0⟩)] ∧
    (builtinCastDecimalAsIntSig.evalInt tpUnsignedLonglong
        (some ⟨-5, 0⟩) scLenient).sc.warnings =
      scLenient.warnings ++ [Err.truncatedWrongVal "DECIMAL" (MyDecimal.str ⟨-5, 0⟩)] := by
  have h := claim_C5 tpSignedLonglong scLenient
  have hu := claim_C5 tpUnsignedLonglong scLenient
  exact ⟨h.1.1, h.1.2, hu.2.2.1 rfl ⟨25, 1⟩, h.2.1 rfl ⟨35, 1⟩,
    h.2.2.2.1 ⟨-(10 ^ 19 : Int), 0⟩ rfl rfl (by decide),
    hu.2.2.2.2 ⟨-5, 0⟩ rfl rfl (by decide)⟩

/-- C8: casting the signed integer 123 to a String target whose display
length does not truncate, and then casting the produced string to an
Integer target, yields 123 with no error and no null. -/
theorem claim_C8 (tp1 tp2 : FieldType) (sc : StmtCtx)
    (hflen : ∀ f, tp1.flen = some f → 3 ≤ f) :
    (builtinCastIntAsStringSig.evalString tp1 false (some 123) sc).res = "123" ∧
    (builtinCastIntAsStringSig.evalString tp1 false (some 123) sc).err = none ∧
    builtinCastStringAsIntSig.evalInt tp2 argString none
        (some (builtinCastIntAsStringSig.evalString tp1 false (some 123) sc).res) sc =
      ⟨123, false, none, sc⟩ := by
  have hps : ProduceStrWithSpecifiedTp (toString (123 : Int)) tp1 sc = ("123", none, sc) := by
    have hlen : (toString (123 : Int)) = "123" := rfl
    rw [hlen]
    unfold ProduceStrWithSpecifiedTp
    rcases hf : tp1.flen with _ | f
    · rfl
    · have h3 : ("123" : String).length ≤ f := by
        have h0 : ("123" : String).length = 3 := rfl
        rw [h0]
        exact hflen f hf
      simp [h3]
  have h1 : builtinCastIntAsStringSig.evalString tp1 false (some 123) sc =
      ⟨"123", false, none, sc⟩ := by
    simp [builtinCastIntAsStringSig.evalString, hps]
  refine ⟨by rw [h1], by rw [h1], ?_⟩
  rw [h1]
  obtain ⟨ttag, tflen, tdec, tuns, tbool, tjson⟩ := tp2
  cases tuns <;> rfl

/-- C8 witness: the round trip evaluated with a width-20 string target and
a signed integer target in a concrete context. -/
theorem claim_C8_witness :
    (builtinCastIntAsStringSig.evalString tpStr20 false (some 123) scLenient).res = "123" ∧
    builtinCastStringAsIntSig.evalInt tpSignedLonglong argString none
        (some (builtinCastIntAsStringSig.evalString tpStr20 false (some 123) scLenient).res)
        scLenient =
      ⟨123, false, none, scLenient⟩ := by
  have h := claim_C8 tpStr20 tpSignedLonglong scLenient (by
    intro f hf
    have h20 : some (20 : Nat) = some f := hf
    injection h20 with h20
    omega)
  exact ⟨h.1, h.2.2⟩

/-- Rounding the fractional seconds preserves an all-zero time-of-day. -/
theorem zeroClock_roundFrac (t : TimeVal) (fsp : Option Nat) (h : zeroClock t) :
    zeroClock (t.roundFrac fsp) := by
  rcases fsp with _ | f
  · exact h
  · simp only [TimeVal.roundFrac]
    by_cases h6 : 6 ≤ f
    · rw [if_pos h6]
      exact h
    · rw [if_neg h6]
      obtain ⟨h1, h2, h3, h4⟩ := h
      have hp : 0 < 10 ^ (6 - f) := pow_pos (by norm_num) _
      simp only [h4]
      have hz : (0 + 10 ^ (6 - f) / 2) / 10 ^ (6 - f) * 10 ^ (6 - f) = 0 := by
        have h0 : (10 ^ (6 - f) / 2) / 10 ^ (6 - f) = 0 :=
          Nat.div_eq_of_lt (Nat.div_lt_self hp one_lt_two)
        simp [h0]
      rw [hz]
      simp [zeroClock, h1, h2, h3]

/-- C2: for every source class, a successful conversion to a DATE-tagged
DateTime target has its hour, minute, second and fractional-second fields
all zero; the Duration source anchors to the current date and is likewise
zeroed. -/
theorem claim_C2 (tp : FieldType) (sc : StmtCtx) (htag : tp.tp = TypeTag.date) :
    (∀ v : Int, (builtinCastIntAsTimeSig.evalTime tp (some v) sc).err = none →
      zeroClock (builtinCastIntAsTimeSig.evalTime tp (some v) sc).res) ∧
    (∀ v : RealNum, (builtinCastRealAsTimeSig.evalTime tp (some v) sc).err = none →
      zeroClock (builtinCastRealAsTimeSig.evalTime tp (some v) sc).res) ∧
    (∀ d : MyDecimal, (builtinCastDecimalAsTimeSig.evalTime tp (some d) sc).err = none →
      zeroClock (builtinCastDecimalAsTimeSig.evalTime tp (some d) sc).res) ∧
    (∀ s : String, (builtinCastStringAsTimeSig.evalTime tp (some s) sc).err = none →
      zeroClock (builtinCastStringAsTimeSig.evalTime tp (some s) sc).res) ∧
    (∀ t : TimeVal, (builtinCastTimeAsTimeSig.evalTime tp (some t) sc).err = none →
      zeroClock (builtinCastTimeAsTimeSig.evalTime tp (some t) sc).res) ∧
    (∀ d : DurationVal, (builtinCastDurationAsTimeSig.evalTime tp (some d) sc).err = none →
      zeroClock (builtinCastDurationAsTimeSig.evalTime tp (some d) sc).res) ∧
    (∀ v : JsonValue, (builtinCastJSONAsTimeSig.evalTime tp (some v) sc).err = none →
      zeroClock (builtinCastJSONAsTimeSig.evalTime tp (some v) sc).res) := by
  obtain ⟨ttag, tflen, tdec, tuns, tbool, tjson⟩ := tp
  have h2 : ttag = TypeTag.date := htag
  subst h2
  refine ⟨fun v herr => ?_, fun v herr => ?_, fun d herr => ?_, fun s herr => ?_,
    fun t herr => ?_, fun d herr => ?_, fun v herr => ?_⟩
  · rcases hp : ParseTimeFromNum v TypeTag.date tdec with ⟨res, err⟩
    rcases err with _ | e
    · simp [builtinCastIntAsTimeSig.evalTime, hp, zeroClock, FromDate]
    · simp [builtinCastIntAsTimeSig.evalTime, hp] at herr
  · rcases hp : ParseTime v.str TypeTag.date tdec with ⟨res, err⟩
    rcases err with _ | e
    · simp [builtinCastRealAsTimeSig.evalTime, hp, zeroClock, FromDate]
    · simp [builtinCastRealAsTimeSig.evalTime, hp] at herr
  · rcases hp : ParseTime d.str TypeTag.date tdec with ⟨res, err⟩
    rcases err with _ | e
    · simp [builtinCastDecimalAsTimeSig.evalTime, hp, zeroClock, FromDate]
    · simp [builtinCastDecimalAsTimeSig.evalTime, hp] at herr
  · rcases hp : ParseTime s TypeTag.date tdec with ⟨res, err⟩
    rcases err with _ | e
    · simp [builtinCastStringAsTimeSig.evalTime, hp, zeroClock, FromDate]
    · simp [builtinCastStringAsTimeSig.evalTime, hp] at herr
  · simp [builtinCastTimeAsTimeSig.evalTime, TimeVal.convert, zeroClock, FromDate]
  · simp only [builtinCastDurationAsTimeSig.evalTime, DurationVal.convertToTime]
    refine zeroClock_roundFrac _ _ ?_
    simp [zeroClock, FromDate]
  · rcases hu : v.unquote with ⟨s, uerr⟩
    rcases uerr with _ | e
    · rcases hp : ParseTime s TypeTag.date tdec with ⟨res, err⟩
      rcases err with _ | e
      · simp [builtinCastJSONAsTimeSig.evalTime, hu, hp, zeroClock, FromDate]
      · simp [builtinCastJSONAsTimeSig.evalTime, hu, hp] at herr
    · simp [builtinCastJSONAsTimeSig.evalTime, hu] at herr

/-- C2 witness: each source class carrying 2023-06-15 12:30:00 cast to a
DATE target in a concrete context has a zero time-of-day. -/
theorem claim_C2_witness :
    zeroClock (builtinCastIntAsTimeSig.evalTime tpDate
      (some 20230615123000) scLenient).res ∧
    zeroClock (builtinCastRealAsTimeSig.evalTime tpDate
      (some ⟨⟨20230615123000, 0⟩⟩) scLenient).res ∧
    zeroClock (builtinCastDecimalAsTimeSig.evalTime tpDate
      (some ⟨20230615123000, 0⟩) scLenient).res ∧
    zeroClock (builtinCastStringAsTimeSig.evalTime tpDate
      (some "2023-06-15 12:30:00") scLenient).res ∧
    zeroClock (builtinCastTimeAsTimeSig.evalTime tpDate
      (some ⟨⟨2023, 6, 15, 12, 30, 0, 0⟩, TypeTag.datetime, 0⟩) scLenient).res ∧
    zeroClock (builtinCastDurationAsTimeSig.evalTime tpDate
      (some ⟨45000000000000, 0⟩) scLenient).res ∧
    zeroClock (builtinCastJSONAsTimeSig.evalTime tpDate
      (some (JsonValue.jstring "2023-06-15 12:30:00")) scLenient).res := by
  have h := claim_C2 tpDate scLenient rfl
  exact ⟨h.1 20230615123000 (by decide), h.2.1 ⟨⟨20230615123000, 0⟩⟩ (by decide),
    h.2.2.1 ⟨20230615123000, 0⟩ (by decide), h.2.2.2.1 "2023-06-15 12:30:00" (by decide),
    h.2.2.2.2.1 ⟨⟨2023, 6, 15, 12, 30, 0, 0⟩, TypeTag.datetime, 0⟩ (by decide),
    h.2.2.2.2.2.1 ⟨45000000000000, 0⟩ (by decide),
    h.2.2.2.2.2.2 (JsonValue.jstring "2023-06-15 12:30:00") (by decide)⟩

end TidbCast
